import Mathlib

/-!
Verification of the TesseractIRC chat-state engine.

Shallow embedding of the backend state model of the repository:
`irc_client/backend/models.py` (`Message`, `ChatModel`, `ChatListModel`),
`irc_client/backend/irc_client.py` (`IRCClient.send_message`,
`IRCClient.disconnect_from_server`) and
`irc_client/backend/app_controller.py` (`AppController._on_message_received`,
`AppController._check_for_new_messages`).

Modelling conventions:
- Wall-clock instants (`datetime.datetime.now()`, `time.time()`) are passed in
  as explicit `Nat` parameters; all `now()` calls inside one operation are
  modelled as a single instant unless the distinction is observable
  (`ChatModel.add_message` keeps the two calls separate as `tMsg`/`tUpd`).
  The `strftime`-formatted `last_message_time` string is modelled as the
  underlying `Nat` instant (`""` at creation becomes `0`).
- Python `dict`s keyed by strings become association lists with `lookupD`,
  `insertD` (replace-in-place or append, mirroring dict insertion order) and
  `eraseD` (mirroring `del`).
- Qt signal emissions that the claims observe (`activeChannelChanged`,
  `message_received`, `server_disconnected`, `messagesUpdated`) are returned
  as explicit values; `dataChanged` / `beginInsertRows` bookkeeping is pure
  view-layer plumbing and is not part of the state.
- Mutating methods become functions returning the new state together with the
  Python return value.
-/

/-- Message record, from `models.Message.__init__`. -/
structure Message where
  sender : String
  content : String
  timestamp : Nat
  is_system : Bool
deriving Repr, DecidableEq

/-- Per-chat message model, from `models.ChatModel.__init__`: message list,
own nickname, and the `_last_update_timestamp` set to `now()` at creation. -/
structure ChatModel where
  messages : List Message
  own_nickname : String
  last_update_timestamp : Nat
deriving Repr, DecidableEq

/-- Fresh chat model, `ChatModel()` constructed at instant `now`. -/
def ChatModel.new (now : Nat) : ChatModel :=
  { messages := [], own_nickname := "", last_update_timestamp := now }

/-- From `ChatModel.add_message`: appends a `Message` stamped at `tMsg`,
then sets `_last_update_timestamp` to the (second) `now()` call `tUpd`,
and returns the index of the new message. -/
def ChatModel.add_message (m : ChatModel) (sender content : String)
    (is_system : Bool) (tMsg tUpd : Nat) : ChatModel × Nat :=
  ({ m with
      messages := m.messages ++
        [{ sender := sender, content := content, timestamp := tMsg, is_system := is_system }],
      last_update_timestamp := tUpd },
   m.messages.length)

/-- From `ChatModel.set_own_nickname` (the `dataChanged` emit is view-only). -/
def ChatModel.set_own_nickname (m : ChatModel) (nickname : String) : ChatModel :=
  { m with own_nickname := nickname }

/-- From `ChatModel.update_messages_if_needed`: returns `false` on an empty
list; otherwise takes the maximal message timestamp (`max(self._messages,
key=...)`) and, when it is strictly newer than `_last_update_timestamp`,
advances that timestamp and reports `true`. -/
def ChatModel.update_messages_if_needed (m : ChatModel) : ChatModel × Bool :=
  match m.messages with
  | [] => (m, false)
  | msg :: rest =>
    let newest := rest.foldl (fun acc x => Nat.max acc x.timestamp) msg.timestamp
    if newest > m.last_update_timestamp then
      ({ m with last_update_timestamp := newest }, true)
    else
      (m, false)

/-- Association-list lookup modelling Python `dict` access / `in`. -/
def lookupD {α : Type} : List (String × α) → String → Option α
  | [], _ => none
  | (k, v) :: rest, key => if k = key then some v else lookupD rest key

/-- Association-list update modelling Python `dict` assignment: replace the
value in place when the key is present, append otherwise. -/
def insertD {α : Type} : List (String × α) → String → α → List (String × α)
  | [], key, v => [(key, v)]
  | (k, w) :: rest, key, v =>
    if k = key then (k, v) :: rest else (k, w) :: insertD rest key v

/-- Association-list removal modelling Python `del d[key]`. -/
def eraseD {α : Type} : List (String × α) → String → List (String × α)
  | [], _ => []
  | (k, v) :: rest, key => if k = key then rest else (k, v) :: eraseD rest key

/-- Sidebar chat entry, from the dictionaries appended to
`ChatListModel._chats` in `add_server` / `add_channel`. -/
structure Chat where
  name : String
  server : String
  is_private : Bool
  unread_count : Nat
  last_message : String
  last_message_time : Nat
deriving Repr, DecidableEq

/-- State of `models.ChatListModel`: the `_chats` entry list, the active
pair, and the nested `_chat_models` dictionary. -/
structure ChatListModel where
  chats : List Chat
  active_server : Option String
  active_channel : Option String
  chat_models : List (String × List (String × ChatModel))
deriving Repr, DecidableEq

/-- Sidebar entry appended by `add_server`: the server's own chat. -/
def serverEntry (server : String) : Chat :=
  { name := server, server := server, is_private := false,
    unread_count := 0, last_message := "", last_message_time := 0 }

/-- Sidebar entry appended by `add_channel`. -/
def channelEntry (server channel : String) (is_private : Bool) : Chat :=
  { name := channel, server := server, is_private := is_private,
    unread_count := 0, last_message := "", last_message_time := 0 }

/-- From `ChatListModel.add_server`: no-op returning `False` when a chat with
`server == name == server` exists, otherwise appends the server's own chat
entry and ensures a `_chat_models` slot. -/
def ChatListModel.add_server (st : ChatListModel) (server : String) :
    ChatListModel × Bool :=
  if ∃ ch ∈ st.chats, ch.server = server ∧ ch.name = server then
    (st, false)
  else
    let st1 := { st with chats := st.chats ++ [serverEntry server] }
    if lookupD st1.chat_models server = none then
      ({ st1 with chat_models := insertD st1.chat_models server [] }, true)
    else
      (st1, true)

/-- From `ChatListModel.add_channel`: when the chat entry already exists, only
ensures the chat model slot exists (never resets an existing model) and
returns `True`; otherwise adds the server entry if needed, appends the
channel entry, and installs a fresh `ChatModel`. -/
def ChatListModel.add_channel (st : ChatListModel) (server channel : String)
    (is_private : Bool) (now : Nat) : ChatListModel × Bool :=
  if ∃ ch ∈ st.chats, ch.server = server ∧ ch.name = channel then
    let models :=
      match lookupD st.chat_models server with
      | none => insertD st.chat_models server (insertD [] channel (ChatModel.new now))
      | some d =>
        if lookupD d channel = none then
          insertD st.chat_models server (insertD d channel (ChatModel.new now))
        else
          st.chat_models
    ({ st with chat_models := models }, true)
  else
    let st1 :=
      if ∃ ch ∈ st.chats, ch.server = server ∧ ch.name = server then st
      else (st.add_server server).1
    let st2 := { st1 with chats := st1.chats ++ [channelEntry server channel is_private] }
    let d := (lookupD st2.chat_models server).getD []
    let cm2 := insertD st2.chat_models server (insertD d channel (ChatModel.new now))
    ({ st2 with chat_models := cm2 }, true)

/-- From `ChatListModel.remove_server`: returns `False` when no chat entry
references the server; otherwise deletes every matching entry and the
server's model dictionary, and when the active server matched, clears the
active pair and emits `activeChannelChanged("", "")` (returned as the event
list). -/
def ChatListModel.remove_server (st : ChatListModel) (server : String) :
    ChatListModel × Bool × List (String × String) :=
  if ∃ ch ∈ st.chats, ch.server = server then
    let st1 := { st with
      chats := st.chats.filter (fun ch => decide (¬ ch.server = server)),
      chat_models := eraseD st.chat_models server }
    if st1.active_server = some server then
      ({ st1 with active_server := none, active_channel := none }, true, [("", "")])
    else
      (st1, true, [])
  else
    (st, false, [])

/-- From `ChatListModel.get_chat_model`: create-if-absent lookup of the nested
`_chat_models` dictionary; returns the (possibly fresh) model together with
the updated state. -/
def ChatListModel.get_chat_model (st : ChatListModel) (server channel : String)
    (now : Nat) : ChatListModel × ChatModel :=
  match lookupD st.chat_models server with
  | none =>
    let m := ChatModel.new now
    ({ st with chat_models := insertD st.chat_models server (insertD [] channel m) }, m)
  | some d =>
    match lookupD d channel with
    | none =>
      let m := ChatModel.new now
      ({ st with chat_models := insertD st.chat_models server (insertD d channel m) }, m)
    | some m => (st, m)

/-- Helper mirroring the unread-clearing loop in `set_active_chat`: the first
entry matching the pair has its `unread_count` set to `0` (when positive),
then the loop breaks. -/
def clearUnreadFirst : List Chat → String → String → List Chat
  | [], _, _ => []
  | ch :: rest, server, channel =>
    if ch.server = server ∧ ch.name = channel then
      (if ch.unread_count > 0 then { ch with unread_count := 0 } else ch) :: rest
    else
      ch :: clearUnreadFirst rest server channel

/-- From `ChatListModel.set_active_chat`: creates the chat when absent (only
for a truthy channel; fails for a truthy channel with a falsy server),
installs the new active pair, ensures the chat model slot, clears the unread
count of the first matching entry, and emits `activeChannelChanged(server,
channel)` exactly when the pair changed. -/
def ChatListModel.set_active_chat (st : ChatListModel) (server channel : String)
    (now : Nat) : ChatListModel × Bool × List (String × String) :=
  if (¬ ∃ ch ∈ st.chats, ch.server = server ∧ ch.name = channel) ∧ channel ≠ "" ∧ server = "" then
    (st, false, [])
  else
    let st1 :=
      if (¬ ∃ ch ∈ st.chats, ch.server = server ∧ ch.name = channel) ∧ channel ≠ "" then
        (st.add_channel server channel false now).1
      else st
    let oldS := st1.active_server
    let oldC := st1.active_channel
    let st2 := { st1 with active_server := some server, active_channel := some channel }
    let st3 :=
      if server ≠ "" ∧ channel ≠ "" then
        let d := (lookupD st2.chat_models server).getD []
        if lookupD d channel = none then
          let cm2 := insertD st2.chat_models server (insertD d channel (ChatModel.new now))
          { st2 with chat_models := cm2 }
        else st2
      else st2
    let st4 :=
      if server ≠ "" ∧ channel ≠ "" then
        { st3 with chats := clearUnreadFirst st3.chats server channel }
      else st3
    let emits :=
      if oldS ≠ some server ∨ oldC ≠ some channel then [(server, channel)] else []
    (st4, true, emits)

/-- Helper mirroring the entry-update loop in `add_message_to_chat`: the first
entry matching the pair gets the new preview, timestamp, and an unread
increment when the pair is not the active one; then the loop breaks. -/
def updateChatEntry : List Chat → String → String → String → String → Nat →
    Option String → Option String → List Chat
  | [], _, _, _, _, _, _, _ => []
  | ch :: rest, server, channel, sender, content, now, aS, aC =>
    if ch.server = server ∧ ch.name = channel then
      { ch with
        last_message := sender ++ ": " ++ content,
        last_message_time := now,
        unread_count :=
          if aS ≠ some server ∨ aC ≠ some channel then ch.unread_count + 1
          else ch.unread_count } :: rest
    else
      ch :: updateChatEntry rest server channel sender content now aS aC

/-- From `ChatListModel.add_message_to_chat`: fetches (creating if absent) the
chat model, appends the message, and updates the first matching sidebar entry
(preview, time, conditional unread increment). Always returns `True`. -/
def ChatListModel.add_message_to_chat (st : ChatListModel)
    (server channel sender content : String) (now : Nat) : ChatListModel × Bool :=
  let r := st.get_chat_model server channel now
  let st1 := r.1
  let m1 := (r.2.add_message sender content false now now).1
  let d := (lookupD st1.chat_models server).getD []
  let st2 := { st1 with chat_models := insertD st1.chat_models server (insertD d channel m1) }
  let chats2 :=
    updateChatEntry st2.chats server channel sender content now
      st2.active_server st2.active_channel
  ({ st2 with chats := chats2 }, true)

/-- Helper mirroring the loop of `update_channel_info`: updates the first
matching entry (preview with optional sender prefix, time, conditional unread
increment) and reports whether a match was found. -/
def updateInfoEntry : List Chat → String → String → String → Option String →
    Bool → Nat → Option String → Option String → List Chat × Bool
  | [], _, _, _, _, _, _, _, _ => ([], false)
  | ch :: rest, server, channel, lm, sender, is_unread, now, aS, aC =>
    if ch.server = server ∧ ch.name = channel then
      ({ ch with
          last_message :=
            match sender with
            | some s => if s ≠ "" then s ++ ": " ++ lm else lm
            | none => lm,
          last_message_time := now,
          unread_count :=
            if is_unread = true ∧ (aS ≠ some server ∨ aC ≠ some channel) then
              ch.unread_count + 1
            else ch.unread_count } :: rest, true)
    else
      let r := updateInfoEntry rest server channel lm sender is_unread now aS aC
      (ch :: r.1, r.2)

/-- From `ChatListModel.update_channel_info`: updates the first matching
sidebar entry and returns `True`, or returns `False` leaving the list
unchanged when no entry matches. -/
def ChatListModel.update_channel_info (st : ChatListModel)
    (server channel last_message : String) (sender : Option String)
    (is_unread : Bool) (now : Nat) : ChatListModel × Bool :=
  let r := updateInfoEntry st.chats server channel last_message sender is_unread now
    st.active_server st.active_channel
  ({ st with chats := r.1 }, r.2)

/-- One connected session in `IRCClient.clients`, keeping the only piece of
connection state the verified operations read: the session's own nickname
(`connection.get_nickname()`). -/
structure IRCSession where
  nickname : String
deriving Repr, DecidableEq

/-- From `IRCClient.send_message`: returns `False` for a server absent from
the `clients` registry and for `target == server`; otherwise performs the
`privmsg` (whose socket-level success is the `sendOk` parameter; on an
exception the method returns `False` without emitting) and echoes the
outgoing text to the sender's own view by emitting `message_received(server,
target, own_nickname, message)`. The first component is the emitted
`message_received` signal, if any. -/
def IRCClient.send_message (clients : List (String × IRCSession))
    (server target message : String) (sendOk : Bool) :
    Option (String × String × String × String) × Bool :=
  match lookupD clients server with
  | none => (none, false)
  | some client =>
    if target = server then (none, false)
    else if sendOk then (some (server, target, client.nickname, message), true)
    else (none, false)

/-- From `IRCClient.disconnect_from_server`: a no-op for a server absent from
the registry; otherwise calls `connection.disconnect(message)` (a best-effort
quit notification: the underlying `irc` library's `send_raw` catches
`socket.error` internally, so a failed socket send — `sendOk = false` — does
not raise into this method), then unconditionally deletes the session and
emits `server_disconnected(server)`. The second component is the list of
emitted `server_disconnected` signals. -/
def IRCClient.disconnect_from_server (clients : List (String × IRCSession))
    (server : String) (sendOk : Bool) :
    List (String × IRCSession) × List String :=
  match lookupD clients server with
  | none => (clients, [])
  | some _ =>
    let _quitNotified := sendOk
    (eraseD clients server, [server])

/-- From `AppController._on_message_received`: fetches (creating if absent)
the chat model for the signal's `(server, channel)`, sets the own nickname,
appends the message, and updates the sidebar entry via `update_channel_info`
(which leaves `_chats` untouched when no entry matches). `nickname` is the
controller's `_nickname`; `now` the instant of the handler run. -/
def AppController.on_message_received (st : ChatListModel)
    (nickname server channel sender message : String) (now : Nat) : ChatListModel :=
  let r := st.get_chat_model server channel now
  let st1 := r.1
  let m1 := ((r.2.set_own_nickname nickname).add_message sender message false now now).1
  let d := (lookupD st1.chat_models server).getD []
  let st2 := { st1 with chat_models := insertD st1.chat_models server (insertD d channel m1) }
  (st2.update_channel_info server channel message (some sender) true now).1

/-- Mutable state read and written by a scheduler tick
(`AppController._check_for_new_messages`): the IRC client registry, the chat
list model, and the per-server `_last_update_time` map. -/
structure AppState where
  clients : List (String × IRCSession)
  chatList : ChatListModel
  last_update_time : List (String × Nat)
deriving Repr, DecidableEq

/-- Body of the per-server loop of `_check_for_new_messages` for one server:
skip entirely when the server was drained less than the 2-second minimum
interval ago (`current_time - last_update < 2.0`, rendered on the integral
clock as `currentTime < last + 2`); otherwise record the drain time, call
`process_once` (its result is the `pollResult` oracle), and when data was
processed run `update_messages_if_needed` on the active chat (emitting
`messagesUpdated` when it reports a change) and then on every non-active
chat of that server. -/
def tickServer (acc : AppState × List (String × String)) (currentTime : Nat)
    (pollResult : String → Bool) (server : String) :
    AppState × List (String × String) :=
  let s := acc.1
  let emits := acc.2
  let last := (lookupD s.last_update_time server).getD 0
  if currentTime < last + 2 then
    (s, emits)
  else
    let s1 := { s with last_update_time := insertD s.last_update_time server currentTime }
    if pollResult server = false then
      (s1, emits)
    else
      match lookupD s1.chatList.chat_models server with
      | none => (s1, emits)
      | some channels =>
        let aS := s1.chatList.active_server
        let aC := s1.chatList.active_channel
        let activeStep : List (String × ChatModel) × List (String × String) :=
          if aS = some server then
            match aC with
            | some c =>
              match lookupD channels c with
              | some m =>
                let r := m.update_messages_if_needed
                (insertD channels c r.1, if r.2 then emits ++ [(server, c)] else emits)
              | none => (channels, emits)
            | none => (channels, emits)
          else (channels, emits)
        let channels2 := activeStep.1.map (fun p =>
          if some p.1 ≠ aC then (p.1, (p.2.update_messages_if_needed).1) else p)
        let cl2 := { s1.chatList with
          chat_models := insertD s1.chatList.chat_models server channels2 }
        ({ s1 with chatList := cl2 }, activeStep.2)

/-- From `AppController._check_for_new_messages`: one scheduler tick at
instant `currentTime` (the `_updating` reentrancy guard is clear on entry in
this single-owner model). Returns the new state and the `messagesUpdated`
emissions of the tick. -/
def AppController.check_for_new_messages (st : AppState) (currentTime : Nat)
    (pollResult : String → Bool) : AppState × List (String × String) :=
  let servers := st.clients.map Prod.fst
  if servers.isEmpty then
    (st, [])
  else
    servers.foldl (fun acc server => tickServer acc currentTime pollResult server) (st, [])

/-- Read-only accessor: the first `_chats` entry matching the pair, mirroring
the lookup loops of `ChatListModel`. -/
def findChat : List Chat → String → String → Option Chat
  | [], _, _ => none
  | ch :: rest, server, channel =>
    if ch.server = server ∧ ch.name = channel then some ch
    else findChat rest server channel

/-- Read-only accessor: the chat model stored for a pair, without the
create-if-absent side effect of `get_chat_model`. -/
def chatModelOf (st : ChatListModel) (server channel : String) : Option ChatModel :=
  (lookupD st.chat_models server).bind (fun d => lookupD d channel)

/-- Read-only accessor: the message history stored for a pair (empty when no
model exists). -/
def messagesOf (st : ChatListModel) (server channel : String) : List Message :=
  match chatModelOf st server channel with
  | some m => m.messages
  | none => []

/-- Read-only accessor: the unread counter of the first matching `_chats`
entry. -/
def unreadOf (st : ChatListModel) (server channel : String) : Option Nat :=
  (findChat st.chats server channel).map Chat.unread_count

/-- Number of `_chats` entries with the given identity. -/
def countChats (l : List Chat) (server channel : String) : Nat :=
  l.countP (fun ch => decide (ch.server = server ∧ ch.name = channel))

/-- Number of entries of a model dictionary carrying the given key. -/
def countKey (d : List (String × ChatModel)) (k : String) : Nat :=
  d.countP (fun p => decide (p.1 = k))

/-- A sequence of `add_message_to_chat` calls to one chat; each item is the
(sender, content, instant) of one call. -/
def appendMany (st : ChatListModel) (server channel : String)
    (items : List (String × String × Nat)) : ChatListModel :=
  items.foldl (fun s it => (s.add_message_to_chat server channel it.1 it.2.1 it.2.2).1) st

/-! Basic lemmas about the dictionary model. -/

lemma lookupD_insertD_self {α : Type} (d : List (String × α)) (k : String) (v : α) :
    lookupD (insertD d k v) k = some v := by
  induction d with
  | nil => simp [insertD, lookupD]
  | cons p rest ih =>
    by_cases h : p.1 = k
    · simp [insertD, lookupD, h]
    · simp [insertD, lookupD, h, ih]

lemma lookupD_insertD_ne {α : Type} (d : List (String × α)) (k k' : String) (v : α)
    (h : k' ≠ k) : lookupD (insertD d k v) k' = lookupD d k' := by
  induction d with
  | nil => simp [insertD, lookupD, Ne.symm h]
  | cons p rest ih =>
    obtain ⟨a, b⟩ := p
    by_cases ha : a = k
    · simp [insertD, lookupD, ha, Ne.symm h]
    · by_cases ha' : a = k'
      · simp [insertD, lookupD, ha, ha', h]
      · simp [insertD, lookupD, ha, ha', ih]

lemma lookupD_eraseD_ne {α : Type} (d : List (String × α)) (k k' : String)
    (h : k' ≠ k) : lookupD (eraseD d k) k' = lookupD d k' := by
  induction d with
  | nil => simp [eraseD]
  | cons p rest ih =>
    obtain ⟨a, b⟩ := p
    by_cases ha : a = k
    · simp [eraseD, lookupD, ha, Ne.symm h]
    · by_cases ha' : a = k'
      · simp [eraseD, lookupD, ha, ha', h]
      · simp [eraseD, lookupD, ha, ha', ih]

lemma lookupD_eq_none_of_forall {α : Type} (d : List (String × α)) (k : String)
    (h : ∀ p ∈ d, p.1 ≠ k) : lookupD d k = none := by
  induction d with
  | nil => rfl
  | cons p rest ih =>
    obtain ⟨a, b⟩ := p
    have ha : a ≠ k := h (a, b) (List.mem_cons_self _ _)
    simp only [lookupD, if_neg ha]
    exact ih (fun q hq => h q (List.mem_cons_of_mem _ hq))

lemma lookupD_eraseD_self {α : Type} (d : List (String × α)) (k : String)
    (hnd : (d.map Prod.fst).Nodup) : lookupD (eraseD d k) k = none := by
  induction d with
  | nil => simp [eraseD, lookupD]
  | cons p rest ih =>
    obtain ⟨a, b⟩ := p
    simp only [List.map_cons, List.nodup_cons] at hnd
    by_cases ha : a = k
    · subst ha
      simp only [eraseD, if_pos rfl]
      apply lookupD_eq_none_of_forall
      intro q hq hqk
      exact hnd.1 (List.mem_map.mpr ⟨q, hq, hqk⟩)
    · simp [eraseD, lookupD, ha, ih hnd.2]

lemma insertD_insertD {α : Type} (d : List (String × α)) (k : String) (v w : α) :
    insertD (insertD d k v) k w = insertD d k w := by
  induction d with
  | nil => simp [insertD]
  | cons p rest ih =>
    obtain ⟨a, b⟩ := p
    by_cases ha : a = k
    · simp [insertD, ha]
    · simp [insertD, ha, ih]

lemma countKey_insertD_absent (d : List (String × ChatModel)) (k : String) (v : ChatModel)
    (h : lookupD d k = none) : countKey (insertD d k v) k = 1 := by
  induction d with
  | nil => simp [insertD, countKey]
  | cons p rest ih =>
    obtain ⟨a, b⟩ := p
    by_cases ha : a = k
    · simp [lookupD, ha] at h
    · simp only [lookupD, if_neg ha] at h
      have hr := ih h
      simp only [countKey] at hr ⊢
      simp [insertD, List.countP_cons, ha, hr]

/-! Basic lemmas about the chat-entry list accessors. -/

lemma findChat_isSome_iff (l : List Chat) (s c : String) :
    (findChat l s c).isSome = true ↔ ∃ ch ∈ l, ch.server = s ∧ ch.name = c := by
  induction l with
  | nil => simp [findChat]
  | cons ch rest ih =>
    by_cases h : ch.server = s ∧ ch.name = c
    · simp [findChat, h]
    · simp only [findChat, if_neg h, ih, List.mem_cons]
      constructor
      · rintro ⟨x, hx, hxp⟩
        exact ⟨x, Or.inr hx, hxp⟩
      · rintro ⟨x, hx | hx, hxp⟩
        · exact absurd (hx ▸ hxp) h
        · exact ⟨x, hx, hxp⟩

lemma findChat_eq_none_of_not_exists (l : List Chat) (s c : String)
    (h : ¬ ∃ ch ∈ l, ch.server = s ∧ ch.name = c) : findChat l s c = none := by
  by_contra hne
  rcases Option.ne_none_iff_isSome.mp hne with hs
  exact h ((findChat_isSome_iff l s c).mp hs)

lemma exists_of_findChat_some (l : List Chat) (s c : String) (ch : Chat)
    (h : findChat l s c = some ch) : ∃ x ∈ l, x.server = s ∧ x.name = c := by
  apply (findChat_isSome_iff l s c).mp
  simp [h]

lemma findChat_append_none (l1 l2 : List Chat) (s c : String)
    (h : findChat l1 s c = none) : findChat (l1 ++ l2) s c = findChat l2 s c := by
  induction l1 with
  | nil => simp
  | cons ch rest ih =>
    by_cases hm : ch.server = s ∧ ch.name = c
    · simp [findChat, hm] at h
    · simp only [findChat, if_neg hm] at h
      simp only [List.cons_append, findChat, if_neg hm]
      exact ih h

lemma countP_eq_zero_of_findChat_none (l : List Chat) (s c : String)
    (h : findChat l s c = none) : countChats l s c = 0 := by
  induction l with
  | nil => simp [countChats]
  | cons ch rest ih =>
    by_cases hm : ch.server = s ∧ ch.name = c
    · simp [findChat, hm] at h
    · simp only [findChat, if_neg hm] at h
      simp [countChats, List.countP_cons, hm] at *
      exact ih h

/-! Frame lemmas: which state components each operation leaves unchanged. -/

lemma get_chat_model_frame (st : ChatListModel) (server channel : String) (now : Nat) :
    ∃ cm, (st.get_chat_model server channel now).1 = { st with chat_models := cm } := by
  cases h1 : lookupD st.chat_models server with
  | none =>
    refine ⟨insertD st.chat_models server (insertD [] channel (ChatModel.new now)), ?_⟩
    simp [ChatListModel.get_chat_model, h1]
  | some d =>
    cases h2 : lookupD d channel with
    | none =>
      refine ⟨insertD st.chat_models server (insertD d channel (ChatModel.new now)), ?_⟩
      simp [ChatListModel.get_chat_model, h1, h2]
    | some m =>
      refine ⟨st.chat_models, ?_⟩
      simp [ChatListModel.get_chat_model, h1, h2]

lemma add_message_to_chat_shape (st : ChatListModel)
    (server channel sender content : String) (now : Nat) :
    ∃ cm, (st.add_message_to_chat server channel sender content now).1 =
      { st with
        chats := updateChatEntry st.chats server channel sender content now
          st.active_server st.active_channel,
        chat_models := cm } := by
  obtain ⟨cm1, h1⟩ := get_chat_model_frame st server channel now
  simp only [ChatListModel.add_message_to_chat]
  rw [h1]
  exact ⟨_, rfl⟩

lemma add_server_shape (st : ChatListModel) (server : String) :
    ∃ chats1 cm, (st.add_server server).1 = { st with chats := chats1, chat_models := cm } := by
  by_cases h : ∃ ch ∈ st.chats, ch.server = server ∧ ch.name = server
  · refine ⟨st.chats, st.chat_models, ?_⟩
    rw [ChatListModel.add_server, if_pos h]
  · rw [ChatListModel.add_server, if_neg h]
    simp only []
    split
    · exact ⟨_, _, rfl⟩
    · exact ⟨_, _, rfl⟩

lemma add_channel_shape (st : ChatListModel) (server channel : String)
    (is_private : Bool) (now : Nat) :
    ∃ chats1 cm, (st.add_channel server channel is_private now).1 =
      { st with chats := chats1, chat_models := cm } := by
  by_cases h : ∃ ch ∈ st.chats, ch.server = server ∧ ch.name = channel
  · rw [ChatListModel.add_channel, if_pos h]
    exact ⟨st.chats, _, rfl⟩
  · rw [ChatListModel.add_channel, if_neg h]
    by_cases h2 : ∃ ch ∈ st.chats, ch.server = server ∧ ch.name = server
    · rw [if_pos h2]
      exact ⟨_, _, rfl⟩
    · rw [if_neg h2]
      obtain ⟨chats1, cm1, hs⟩ := add_server_shape st server
      rw [hs]
      exact ⟨_, _, rfl⟩

/-! Lemmas about the sidebar-entry update loops. -/

lemma findChat_updateChatEntry_self (l : List Chat) (s c sender content : String)
    (now : Nat) (aS aC : Option String) :
    findChat (updateChatEntry l s c sender content now aS aC) s c =
      (findChat l s c).map (fun ch =>
        { ch with
          last_message := sender ++ ": " ++ content,
          last_message_time := now,
          unread_count :=
            if aS ≠ some s ∨ aC ≠ some c then ch.unread_count + 1
            else ch.unread_count }) := by
  induction l with
  | nil => simp [updateChatEntry, findChat]
  | cons ch rest ih =>
    by_cases h : ch.server = s ∧ ch.name = c
    · simp [updateChatEntry, findChat, h]
    · simp [updateChatEntry, findChat, h, ih]

lemma findChat_updateChatEntry_ne (l : List Chat) (s c s' c' sender content : String)
    (now : Nat) (aS aC : Option String) (hne : ¬ (s' = s ∧ c' = c)) :
    findChat (updateChatEntry l s c sender content now aS aC) s' c' =
      findChat l s' c' := by
  induction l with
  | nil => simp [updateChatEntry, findChat]
  | cons ch rest ih =>
    by_cases h : ch.server = s ∧ ch.name = c
    · have h' : ¬ (s = s' ∧ c = c') := by
        rintro ⟨hs', hc'⟩
        exact hne ⟨hs'.symm, hc'.symm⟩
      simp [updateChatEntry, findChat, h, h']
    · simp [updateChatEntry, findChat, h, ih]

lemma findChat_clearUnreadFirst (l : List Chat) (s c : String) :
    (findChat (clearUnreadFirst l s c) s c).map Chat.unread_count =
      (findChat l s c).map (fun _ => 0) := by
  induction l with
  | nil => simp [clearUnreadFirst, findChat]
  | cons ch rest ih =>
    by_cases h : ch.server = s ∧ ch.name = c
    · by_cases hu : ch.unread_count > 0
      · simp [clearUnreadFirst, findChat, h, hu]
      · simp [clearUnreadFirst, findChat, h, hu]
        omega
    · simp [clearUnreadFirst, findChat, h, ih]

lemma updateInfoEntry_no_match (l : List Chat) (s c lm : String) (sender : Option String)
    (is_unread : Bool) (now : Nat) (aS aC : Option String)
    (h : findChat l s c = none) :
    updateInfoEntry l s c lm sender is_unread now aS aC = (l, false) := by
  induction l with
  | nil => simp [updateInfoEntry]
  | cons ch rest ih =>
    by_cases hm : ch.server = s ∧ ch.name = c
    · simp [findChat, hm] at h
    · simp only [findChat, if_neg hm] at h
      simp [updateInfoEntry, hm, ih h]

/-! Characterization of the refresh check. -/

lemma foldl_max_gt (t : Nat) (l : List Message) : ∀ a : Nat,
    (l.foldl (fun acc x => Nat.max acc x.timestamp) a > t ↔
      a > t ∨ ∃ x ∈ l, x.timestamp > t) := by
  induction l with
  | nil => intro a; simp
  | cons x xs ih =>
    intro a
    simp only [List.foldl_cons, ih, List.exists_mem_cons_iff, gt_iff_lt, lt_max_iff]
    tauto

lemma update_messages_iff (m : ChatModel) :
    (m.update_messages_if_needed).2 = true ↔
      ∃ x ∈ m.messages, x.timestamp > m.last_update_timestamp := by
  rcases hm : m.messages with _ | ⟨msg, rest⟩
  · simp [ChatModel.update_messages_if_needed, hm]
  · simp only [ChatModel.update_messages_if_needed, hm]
    by_cases hgt : rest.foldl (fun acc x => Nat.max acc x.timestamp) msg.timestamp >
        m.last_update_timestamp
    · simp only [if_pos hgt]
      have := (foldl_max_gt m.last_update_timestamp rest msg.timestamp).mp hgt
      simp only [List.exists_mem_cons_iff]
      tauto
    · simp only [if_neg hgt]
      have := fun h => hgt ((foldl_max_gt m.last_update_timestamp rest msg.timestamp).mpr h)
      simp only [List.exists_mem_cons_iff]
      constructor
      · intro h; cases h
      · intro h
        exact absurd (this (by tauto)) (fun hh => hh)

/-- C2: `update_messages_if_needed` reports `true` exactly when some message
in the chat has a timestamp strictly after the reference timestamp it
compares against (`_last_update_timestamp`); in particular, after an
`add_message` stamped at `tMsg` the check reports the chat as needing
refresh relative to any reference instant `ts` earlier than `tMsg`. -/
theorem needs_refresh_c2 (m : ChatModel) (sender content : String) (sys : Bool)
    (tMsg tUpd ts : Nat) (hts : ts < tMsg) :
    ((m.update_messages_if_needed).2 =
      m.messages.any (fun x => decide (x.timestamp > m.last_update_timestamp)))
    ∧ (({ (m.add_message sender content sys tMsg tUpd).1 with
          last_update_timestamp := ts } : ChatModel).update_messages_if_needed).2 = true := by
  constructor
  · apply Bool.eq_iff_iff.mpr
    simp only [update_messages_iff, List.any_eq_true, decide_eq_true_eq]
  · apply (update_messages_iff _).mpr
    refine ⟨{ sender := sender, content := content, timestamp := tMsg, is_system := sys }, ?_, ?_⟩
    · simp [ChatModel.add_message]
    · simpa using hts

/-- Witness for C2 at a concrete model and instants (reference 0, append at 3). -/
theorem needs_refresh_c2_witness :
    (0 : Nat) < 3 ∧
    ((((ChatModel.new 5).update_messages_if_needed).2 =
      (ChatModel.new 5).messages.any
        (fun x => decide (x.timestamp > (ChatModel.new 5).last_update_timestamp)))
    ∧ (({ ((ChatModel.new 5).add_message "alice" "hello" false 3 4).1 with
          last_update_timestamp := 0 } : ChatModel).update_messages_if_needed).2 = true) :=
  ⟨by decide, needs_refresh_c2 (ChatModel.new 5) "alice" "hello" false 3 4 0 (by decide)⟩

/-! Creation and activation lemmas supporting C1 and C4. -/

lemma add_server_chats (st : ChatListModel) (server : String)
    (h : ¬ ∃ ch ∈ st.chats, ch.server = server ∧ ch.name = server) :
    ((st.add_server server).1).chats = st.chats ++ [serverEntry server] := by
  simp only [ChatListModel.add_server, if_neg h]
  split <;> rfl

lemma unreadOf_add_channel_created (st : ChatListModel) (s c : String) (p : Bool) (now : Nat)
    (h : findChat st.chats s c = none) :
    unreadOf (st.add_channel s c p now).1 s c = some 0 := by
  have hex : ¬ ∃ ch ∈ st.chats, ch.server = s ∧ ch.name = c := by
    rw [← findChat_isSome_iff, h]
    simp
  rw [ChatListModel.add_channel, if_neg hex]
  by_cases h2 : ∃ ch ∈ st.chats, ch.server = s ∧ ch.name = s
  · simp only [if_pos h2, unreadOf]
    rw [findChat_append_none _ _ _ _ h]
    simp [findChat, channelEntry]
  · simp only [if_neg h2, unreadOf]
    rw [add_server_chats st s h2, List.append_assoc,
      findChat_append_none _ _ _ _ h]
    by_cases hsc : s = c
    · simp [findChat, serverEntry, hsc]
    · simp [findChat, serverEntry, channelEntry, hsc]

lemma set_active_props (st : ChatListModel) (s c : String) (now : Nat)
    (hs : s ≠ "") (hc : c ≠ "") :
    unreadOf (st.set_active_chat s c now).1 s c = some 0 ∧
    (st.set_active_chat s c now).2.1 = true ∧
    (st.set_active_chat s c now).2.2 =
      (if st.active_server ≠ some s ∨ st.active_channel ≠ some c then [(s, c)] else []) ∧
    (st.set_active_chat s c now).1.active_server = some s ∧
    (st.set_active_chat s c now).1.active_channel = some c := by
  have h3 : s ≠ "" ∧ c ≠ "" := ⟨hs, hc⟩
  by_cases hex : ∃ ch ∈ st.chats, ch.server = s ∧ ch.name = c
  · have h1 : ¬ ((¬ ∃ ch ∈ st.chats, ch.server = s ∧ ch.name = c) ∧ c ≠ "" ∧ s = "") := by
      rintro ⟨hne, -, -⟩; exact hne hex
    have h2 : ¬ ((¬ ∃ ch ∈ st.chats, ch.server = s ∧ ch.name = c) ∧ c ≠ "") := by
      rintro ⟨hne, -⟩; exact hne hex
    rw [ChatListModel.set_active_chat, if_neg h1]
    simp only [if_neg h2, if_pos h3, apply_ite ChatListModel.chats,
      apply_ite ChatListModel.active_server, apply_ite ChatListModel.active_channel, ite_self]
    refine ⟨?_, trivial, trivial, trivial, trivial⟩
    simp only [unreadOf]
    rw [findChat_clearUnreadFirst]
    have hsome := (findChat_isSome_iff st.chats s c).mpr hex
    rcases hf : findChat st.chats s c with _ | ch
    · rw [hf] at hsome; simp at hsome
    · rfl
  · have h1 : ¬ ((¬ ∃ ch ∈ st.chats, ch.server = s ∧ ch.name = c) ∧ c ≠ "" ∧ s = "") := by
      rintro ⟨-, -, hs0⟩; exact hs hs0
    have h2 : (¬ ∃ ch ∈ st.chats, ch.server = s ∧ ch.name = c) ∧ c ≠ "" := ⟨hex, hc⟩
    have hnone : findChat st.chats s c = none := findChat_eq_none_of_not_exists st.chats s c hex
    obtain ⟨chats1, cm1, hsh⟩ := add_channel_shape st s c false now
    have hcreated := unreadOf_add_channel_created st s c false now hnone
    rw [ChatListModel.set_active_chat, if_neg h1]
    simp only [if_pos h2, if_pos h3, hsh, apply_ite ChatListModel.chats,
      apply_ite ChatListModel.active_server, apply_ite ChatListModel.active_channel, ite_self]
    refine ⟨?_, trivial, trivial, trivial, trivial⟩
    rw [hsh] at hcreated
    simp only [unreadOf] at hcreated ⊢
    rw [findChat_clearUnreadFirst]
    rcases hf : findChat chats1 s c with _ | ch
    · rw [hf] at hcreated; simp at hcreated
    · rfl

lemma unread_after_append_non_active (st : ChatListModel) (s c sender content : String)
    (now : Nat) (hact : ¬ (st.active_server = some s ∧ st.active_channel = some c)) :
    unreadOf (st.add_message_to_chat s c sender content now).1 s c =
      (unreadOf st s c).map (fun u => u + 1) ∧
    (st.add_message_to_chat s c sender content now).1.active_server = st.active_server ∧
    (st.add_message_to_chat s c sender content now).1.active_channel = st.active_channel := by
  obtain ⟨cm, hsh⟩ := add_message_to_chat_shape st s c sender content now
  rw [hsh]
  refine ⟨?_, rfl, rfl⟩
  simp only [unreadOf]
  rw [findChat_updateChatEntry_self]
  have hcond : st.active_server ≠ some s ∨ st.active_channel ≠ some c := not_and_or.mp hact
  rcases findChat st.chats s c with _ | ch
  · rfl
  · simp [if_pos hcond]

lemma unread_after_append_active (st : ChatListModel) (s c sender content : String)
    (now : Nat) (haS : st.active_server = some s) (haC : st.active_channel = some c) :
    unreadOf (st.add_message_to_chat s c sender content now).1 s c = unreadOf st s c := by
  obtain ⟨cm, hsh⟩ := add_message_to_chat_shape st s c sender content now
  rw [hsh]
  simp only [unreadOf]
  rw [findChat_updateChatEntry_self]
  have hcond : ¬ (st.active_server ≠ some s ∨ st.active_channel ≠ some c) := by
    rw [not_or, not_ne_iff, not_ne_iff]
    exact ⟨haS, haC⟩
  rcases findChat st.chats s c with _ | ch
  · rfl
  · simp [if_neg hcond]

lemma appendMany_unread (s c : String) (items : List (String × String × Nat)) :
    ∀ (st : ChatListModel) (u : Nat),
    ¬ (st.active_server = some s ∧ st.active_channel = some c) →
    unreadOf st s c = some u →
    unreadOf (appendMany st s c items) s c = some (u + items.length) ∧
    (appendMany st s c items).active_server = st.active_server ∧
    (appendMany st s c items).active_channel = st.active_channel := by
  induction items with
  | nil =>
    intro st u hact hu
    simpa [appendMany] using hu
  | cons it rest ih =>
    intro st u hact hu
    have hstep := unread_after_append_non_active st s c it.1 it.2.1 it.2.2 hact
    have hfold : appendMany st s c (it :: rest) =
        appendMany (st.add_message_to_chat s c it.1 it.2.1 it.2.2).1 s c rest := by
      simp [appendMany]
    have hact1 : ¬ ((st.add_message_to_chat s c it.1 it.2.1 it.2.2).1.active_server = some s ∧
        (st.add_message_to_chat s c it.1 it.2.1 it.2.2).1.active_channel = some c) := by
      rw [hstep.2.1, hstep.2.2]; exact hact
    have hu1 : unreadOf (st.add_message_to_chat s c it.1 it.2.1 it.2.2).1 s c = some (u + 1) := by
      rw [hstep.1, hu]; rfl
    obtain ⟨ha, hb, hcn⟩ := ih (st.add_message_to_chat s c it.1 it.2.1 it.2.2).1 (u + 1) hact1 hu1
    rw [hfold]
    refine ⟨?_, ?_, ?_⟩
    · rw [ha]
      congr 1
      simp
      omega
    · rw [hb, hstep.2.1]
    · rw [hcn, hstep.2.2]

/-- C1: for any sequence of `add_message_to_chat` calls to a chat that is not
the active one (and whose sidebar entry starts with unread count `0`), the
unread counter ends up exactly the number of appended messages; a
`set_active_chat` on that chat then resets it to zero; and a single
`add_message_to_chat` to the currently active chat leaves its unread counter
unchanged. -/
theorem unread_counter_c1 (st st2 : ChatListModel) (s c sender content : String)
    (items : List (String × String × Nat)) (tA t2 : Nat)
    (hs : s ≠ "") (hc : c ≠ "")
    (hact : ¬ (st.active_server = some s ∧ st.active_channel = some c))
    (h0 : unreadOf st s c = some 0)
    (h2S : st2.active_server = some s) (h2C : st2.active_channel = some c) :
    unreadOf (appendMany st s c items) s c = some items.length ∧
    unreadOf ((appendMany st s c items).set_active_chat s c tA).1 s c = some 0 ∧
    unreadOf (st2.add_message_to_chat s c sender content t2).1 s c = unreadOf st2 s c := by
  obtain ⟨ha, -, -⟩ := appendMany_unread s c items st 0 hact h0
  refine ⟨by simpa using ha, ?_, ?_⟩
  · exact (set_active_props (appendMany st s c items) s c tA hs hc).1
  · exact unread_after_append_active st2 s c sender content t2 h2S h2C

/-- Concrete non-active store for the C1 witness. -/
def c1Store : ChatListModel :=
  { chats := [channelEntry "srv" "#chan" false], active_server := none,
    active_channel := none, chat_models := [] }

/-- Concrete store whose active chat is `(srv, #chan)`, for the C1 witness. -/
def c1StoreActive : ChatListModel :=
  { chats := [channelEntry "srv" "#chan" false], active_server := some "srv",
    active_channel := some "#chan", chat_models := [] }

/-- Concrete three-message append sequence for the C1 witness. -/
def c1Items : List (String × String × Nat) := [("a", "x", 1), ("b", "y", 2), ("a", "z", 3)]

/-- Witness for C1: a store holding one non-active chat `(srv, #chan)` with
unread `0`, three appended messages, then activation; and an active-chat
store receiving one message. -/
theorem unread_counter_c1_witness :
    ("srv" : String) ≠ "" ∧ ("#chan" : String) ≠ "" ∧
    ¬ (c1Store.active_server = some "srv" ∧ c1Store.active_channel = some "#chan") ∧
    unreadOf c1Store "srv" "#chan" = some 0 ∧
    c1StoreActive.active_server = some "srv" ∧ c1StoreActive.active_channel = some "#chan" ∧
    (unreadOf (appendMany c1Store "srv" "#chan" c1Items) "srv" "#chan" = some c1Items.length ∧
     unreadOf ((appendMany c1Store "srv" "#chan" c1Items).set_active_chat "srv" "#chan" 9).1
       "srv" "#chan" = some 0 ∧
     unreadOf (c1StoreActive.add_message_to_chat "srv" "#chan" "b" "w" 4).1 "srv" "#chan" =
       unreadOf c1StoreActive "srv" "#chan") := by
  refine ⟨by decide, by decide, by decide, by decide, by decide, by decide, ?_⟩
  exact unread_counter_c1 c1Store c1StoreActive "srv" "#chan" "b" "w" c1Items 9 4
    (by decide) (by decide) (by decide) (by decide) (by decide) (by decide)

/-- Empty chat store, the initial `ChatListModel.__init__` state. -/
def emptyStore : ChatListModel :=
  { chats := [], active_server := none, active_channel := none, chat_models := [] }

/-- C4: `set_active_chat` (for a real pair: nonempty server and target)
returns `True`, ends with the target chat present (creating it first when
absent), with an unread count of zero and the pair installed as active, and
emits `activeChannelChanged` exactly when the pair differs from the
previously active pair. -/
theorem set_active_chat_c4 (st : ChatListModel) (server channel : String) (now : Nat)
    (hs : server ≠ "") (hc : channel ≠ "") :
    (st.set_active_chat server channel now).2.1 = true ∧
    (findChat (st.set_active_chat server channel now).1.chats server channel).isSome = true ∧
    unreadOf (st.set_active_chat server channel now).1 server channel = some 0 ∧
    (st.set_active_chat server channel now).1.active_server = some server ∧
    (st.set_active_chat server channel now).1.active_channel = some channel ∧
    (st.set_active_chat server channel now).2.2 =
      (if st.active_server ≠ some server ∨ st.active_channel ≠ some channel
       then [(server, channel)] else []) := by
  obtain ⟨hu, hr, he, haS, haC⟩ := set_active_props st server channel now hs hc
  refine ⟨hr, ?_, hu, haS, haC, he⟩
  simp only [unreadOf] at hu
  rcases hf : findChat (st.set_active_chat server channel now).1.chats server channel with _ | ch
  · rw [hf] at hu; simp at hu
  · rfl

/-- Witness for C4 on an empty store: activating the absent chat
`(srv, #chan)` creates it, clears unread, and emits one notification. -/
theorem set_active_chat_c4_witness :
    ("srv" : String) ≠ "" ∧ ("#chan" : String) ≠ "" ∧
    ((emptyStore.set_active_chat "srv" "#chan" 5).2.1 = true ∧
     (findChat (emptyStore.set_active_chat "srv" "#chan" 5).1.chats "srv" "#chan").isSome = true ∧
     unreadOf (emptyStore.set_active_chat "srv" "#chan" 5).1 "srv" "#chan" = some 0 ∧
     (emptyStore.set_active_chat "srv" "#chan" 5).1.active_server = some "srv" ∧
     (emptyStore.set_active_chat "srv" "#chan" 5).1.active_channel = some "#chan" ∧
     (emptyStore.set_active_chat "srv" "#chan" 5).2.2 =
       (if emptyStore.active_server ≠ some "srv" ∨ emptyStore.active_channel ≠ some "#chan"
        then [("srv", "#chan")] else [])) :=
  ⟨by decide, by decide,
   set_active_chat_c4 emptyStore "srv" "#chan" 5 (by decide) (by decide)⟩

lemma add_message_models_unified (st : ChatListModel) (s c sender content : String)
    (now : Nat) :
    ∃ D M, (st.add_message_to_chat s c sender content now).1.chat_models =
      insertD st.chat_models s (insertD D c M) ∧
      ∀ c', c' ≠ c → lookupD D c' = lookupD ((lookupD st.chat_models s).getD []) c' := by
  rcases hl : lookupD st.chat_models s with _ | d0
  · refine ⟨insertD [] c (ChatModel.new now),
      ((ChatModel.new now).add_message sender content false now now).1, ?_, ?_⟩
    · simp only [ChatListModel.add_message_to_chat, ChatListModel.get_chat_model, hl,
        lookupD_insertD_self, Option.getD_some, insertD_insertD]
    · intro c' hc'
      rw [lookupD_insertD_ne _ _ _ _ hc']
      rfl
  · rcases hl2 : lookupD d0 c with _ | m0
    · refine ⟨insertD d0 c (ChatModel.new now),
        ((ChatModel.new now).add_message sender content false now now).1, ?_, ?_⟩
      · simp only [ChatListModel.add_message_to_chat, ChatListModel.get_chat_model, hl, hl2,
          lookupD_insertD_self, Option.getD_some, insertD_insertD]
      · intro c' hc'
        rw [lookupD_insertD_ne _ _ _ _ hc']
        rfl
    · refine ⟨d0, (m0.add_message sender content false now now).1, ?_, ?_⟩
      · simp only [ChatListModel.add_message_to_chat, ChatListModel.get_chat_model, hl, hl2,
          Option.getD_some]
      · intro c' hc'
        rfl

/-- C10 (frame property of append): `add_message_to_chat` for `(s, c)` leaves
the active pair untouched, and for every identity `(s', c')` different from
`(s, c)` both the sidebar entry and the stored chat model are unchanged. -/
theorem append_frame_c10 (st : ChatListModel) (s c s' c' sender content : String)
    (now : Nat) (hne : ¬ (s' = s ∧ c' = c)) :
    (st.add_message_to_chat s c sender content now).1.active_server = st.active_server ∧
    (st.add_message_to_chat s c sender content now).1.active_channel = st.active_channel ∧
    findChat (st.add_message_to_chat s c sender content now).1.chats s' c' =
      findChat st.chats s' c' ∧
    chatModelOf (st.add_message_to_chat s c sender content now).1 s' c' =
      chatModelOf st s' c' := by
  obtain ⟨cm2, h2⟩ := add_message_to_chat_shape st s c sender content now
  obtain ⟨D, M, hM, hD⟩ := add_message_models_unified st s c sender content now
  refine ⟨by rw [h2], by rw [h2], ?_, ?_⟩
  · rw [h2]
    exact findChat_updateChatEntry_ne st.chats s c s' c' sender content now
      st.active_server st.active_channel hne
  · simp only [chatModelOf, hM]
    by_cases hss : s' = s
    · subst hss
      have hcc : c' ≠ c := fun hcc => hne ⟨rfl, hcc⟩
      rw [lookupD_insertD_self]
      simp only [Option.some_bind]
      rw [lookupD_insertD_ne _ _ _ _ hcc, hD c' hcc]
      rcases lookupD st.chat_models s' with _ | d
      · rfl
      · rfl
    · rw [lookupD_insertD_ne _ _ _ _ hss]

/-- Witness for C10: appending to `(srv, #chan)` in a two-chat store leaves
the other chat `(srv, #other)` and the active pair untouched. -/
theorem append_frame_c10_witness :
    ¬ (("srv" : String) = "srv" ∧ ("#other" : String) = "#chan") ∧
    ((c1Store.add_message_to_chat "srv" "#chan" "a" "x" 7).1.active_server =
      c1Store.active_server ∧
     (c1Store.add_message_to_chat "srv" "#chan" "a" "x" 7).1.active_channel =
      c1Store.active_channel ∧
     findChat (c1Store.add_message_to_chat "srv" "#chan" "a" "x" 7).1.chats "srv" "#other" =
      findChat c1Store.chats "srv" "#other" ∧
     chatModelOf (c1Store.add_message_to_chat "srv" "#chan" "a" "x" 7).1 "srv" "#other" =
      chatModelOf c1Store "srv" "#other") :=
  ⟨by decide,
   append_frame_c10 c1Store "srv" "#chan" "srv" "#other" "a" "x" 7 (by decide)⟩

/-- C3: for a channel identity (target distinct from the server's own chat
name) not yet present, calling `add_channel` twice leaves the state of the
first call completely unchanged (history, unread counts and all chat fields
preserved), returns `True`, and the store holds exactly one entry for the
identity. -/
theorem upsert_channel_idempotent_c3 (st : ChatListModel) (server channel : String)
    (p1 p2 : Bool) (n1 n2 : Nat)
    (hne : channel ≠ server) (h0 : findChat st.chats server channel = none) :
    ((st.add_channel server channel p1 n1).1.add_channel server channel p2 n2).1 =
      (st.add_channel server channel p1 n1).1 ∧
    ((st.add_channel server channel p1 n1).1.add_channel server channel p2 n2).2 = true ∧
    countChats ((st.add_channel server channel p1 n1).1.add_channel server channel p2 n2).1.chats
      server channel = 1 := by
  have hex : ¬ ∃ ch ∈ st.chats, ch.server = server ∧ ch.name = channel := by
    rw [← findChat_isSome_iff, h0]
    simp
  have hchats1 : (st.add_channel server channel p1 n1).1.chats =
      (if ∃ ch ∈ st.chats, ch.server = server ∧ ch.name = server then st.chats
       else st.chats ++ [serverEntry server]) ++ [channelEntry server channel p1] := by
    rw [ChatListModel.add_channel, if_neg hex]
    by_cases h2 : ∃ ch ∈ st.chats, ch.server = server ∧ ch.name = server
    · simp only [if_pos h2]
    · simp only [if_neg h2, add_server_chats st server h2]
  have hmodels1 : lookupD ((st.add_channel server channel p1 n1).1.chat_models) server ≠ none ∧
      (∀ d, lookupD ((st.add_channel server channel p1 n1).1.chat_models) server = some d →
        lookupD d channel ≠ none) := by
    have hself : ∀ (cm : List (String × List (String × ChatModel))) (d : List (String × ChatModel)),
        lookupD (insertD cm server (insertD d channel (ChatModel.new n1))) server ≠ none ∧
        (∀ d', lookupD (insertD cm server (insertD d channel (ChatModel.new n1))) server = some d' →
          lookupD d' channel ≠ none) := by
      intro cm d
      constructor
      · rw [lookupD_insertD_self]; simp
      · intro d' hd'
        rw [lookupD_insertD_self] at hd'
        cases hd'
        rw [lookupD_insertD_self]
        simp
    rw [ChatListModel.add_channel, if_neg hex]
    by_cases h2 : ∃ ch ∈ st.chats, ch.server = server ∧ ch.name = server
    · simp only [if_pos h2]
      exact hself _ _
    · simp only [if_neg h2]
      exact hself _ _
  have hcount1 : countChats (st.add_channel server channel p1 n1).1.chats server channel = 1 := by
    rw [hchats1]
    simp only [countChats, List.countP_append]
    have hz : List.countP (fun ch => decide (ch.server = server ∧ ch.name = channel)) st.chats = 0 :=
      countP_eq_zero_of_findChat_none st.chats server channel h0
    have hzs : List.countP (fun ch => decide (ch.server = server ∧ ch.name = channel))
        [serverEntry server] = 0 := by
      simp [serverEntry, List.countP_cons, Ne.symm hne]
    have hoc : List.countP (fun ch => decide (ch.server = server ∧ ch.name = channel))
        [channelEntry server channel p1] = 1 := by
      simp [channelEntry, List.countP_cons]
    by_cases h2 : ∃ ch ∈ st.chats, ch.server = server ∧ ch.name = server
    · simp only [if_pos h2, List.countP_append, hz, hoc]
    · simp only [if_neg h2, List.countP_append, hz, hzs, hoc]
  have hex2 : ∃ ch ∈ (st.add_channel server channel p1 n1).1.chats,
      ch.server = server ∧ ch.name = channel := by
    rw [hchats1]
    exact ⟨channelEntry server channel p1, by simp [channelEntry], by simp [channelEntry]⟩
  have hsecond : ((st.add_channel server channel p1 n1).1.add_channel server channel p2 n2) =
      ((st.add_channel server channel p1 n1).1, true) := by
    rw [ChatListModel.add_channel, if_pos hex2]
    obtain ⟨hne1, hall⟩ := hmodels1
    rcases hd : lookupD ((st.add_channel server channel p1 n1).1.chat_models) server with _ | d
    · exact absurd hd hne1
    · have := hall d hd
      rcases hdc : lookupD d channel with _ | m
      · exact absurd hdc this
      · simp only [hd, hdc]
        rw [if_neg (Option.some_ne_none m)]
  refine ⟨?_, ?_, ?_⟩
  · rw [hsecond]
  · rw [hsecond]
  · rw [hsecond]
    exact hcount1

/-- Witness for C3: adding `(srv, #chan)` twice to the empty store. -/
theorem upsert_channel_idempotent_c3_witness :
    ("#chan" : String) ≠ "srv" ∧
    findChat emptyStore.chats "srv" "#chan" = none ∧
    (((emptyStore.add_channel "srv" "#chan" false 1).1.add_channel "srv" "#chan" false 2).1 =
       (emptyStore.add_channel "srv" "#chan" false 1).1 ∧
     ((emptyStore.add_channel "srv" "#chan" false 1).1.add_channel "srv" "#chan" false 2).2 = true ∧
     countChats
       ((emptyStore.add_channel "srv" "#chan" false 1).1.add_channel "srv" "#chan" false 2).1.chats
       "srv" "#chan" = 1) :=
  ⟨by decide, by decide,
   upsert_channel_idempotent_c3 emptyStore "srv" "#chan" false false 1 2 (by decide) (by decide)⟩

lemma findChat_filter_ne (l : List Chat) (server s' c' : String) (h : s' ≠ server) :
    findChat (l.filter (fun ch => decide (¬ ch.server = server))) s' c' =
      findChat l s' c' := by
  induction l with
  | nil => simp [findChat]
  | cons ch rest ih =>
    by_cases hsv : ch.server = server
    · have hm : ¬ (ch.server = s' ∧ ch.name = c') := fun hx => h (hx.1.symm.trans hsv)
      have hpf : (decide (¬ ch.server = server)) = false := by simp [hsv]
      simp only [List.filter_cons, hpf, if_neg Bool.false_ne_true, findChat, if_neg hm]
      exact ih
    · have hpt : (decide (¬ ch.server = server)) = true := by simp [hsv]
      simp only [List.filter_cons, hpt, if_pos rfl, findChat]
      by_cases hm : ch.server = s' ∧ ch.name = c'
      · simp only [if_pos hm]
      · simp only [if_neg hm]
        exact ih

/-- C5: when at least one chat references the server, `remove_server` returns
`True`, removes every chat entry of that server while leaving every other
identity's entry unchanged, and — exactly when the active chat belonged to
that server — empties the active pair and emits exactly one
`activeChannelChanged("", "")` notification (otherwise the active pair is
untouched and nothing is emitted). -/
theorem remove_server_c5 (st : ChatListModel) (server s' c' : String)
    (h : ∃ ch ∈ st.chats, ch.server = server) (hs' : s' ≠ server) :
    (st.remove_server server).2.1 = true ∧
    ((st.remove_server server).1.chats.all (fun ch => decide (¬ ch.server = server)) = true) ∧
    findChat (st.remove_server server).1.chats s' c' = findChat st.chats s' c' ∧
    ((st.remove_server server).1.active_server,
     (st.remove_server server).1.active_channel,
     (st.remove_server server).2.2) =
      (if st.active_server = some server then (none, none, [("", "")])
       else (st.active_server, st.active_channel, ([] : List (String × String)))) := by
  have hall : ((st.chats.filter (fun ch => decide (¬ ch.server = server))).all
      (fun ch => decide (¬ ch.server = server)) = true) := by
    rw [List.all_eq_true]
    intro x hx
    exact (List.mem_filter.mp hx).2
  have hfind := findChat_filter_ne st.chats server s' c' hs'
  simp only [ChatListModel.remove_server, if_pos h]
  by_cases ha : st.active_server = some server
  · simp only [if_pos ha, ha]
    exact ⟨rfl, hall, hfind, rfl⟩
  · simp only [if_neg ha, ha]
    exact ⟨rfl, hall, hfind, rfl⟩

/-- Witness for C5: removing `srv` from a store holding its one chat, with
the active pair elsewhere. -/
theorem remove_server_c5_witness :
    (∃ ch ∈ c1Store.chats, ch.server = "srv") ∧ ("other" : String) ≠ "srv" ∧
    ((c1Store.remove_server "srv").2.1 = true ∧
     ((c1Store.remove_server "srv").1.chats.all
        (fun ch => decide (¬ ch.server = "srv")) = true) ∧
     findChat (c1Store.remove_server "srv").1.chats "other" "#x" =
       findChat c1Store.chats "other" "#x" ∧
     ((c1Store.remove_server "srv").1.active_server,
      (c1Store.remove_server "srv").1.active_channel,
      (c1Store.remove_server "srv").2.2) =
       (if c1Store.active_server = some "srv" then (none, none, [("", "")])
        else (c1Store.active_server, c1Store.active_channel,
          ([] : List (String × String))))) :=
  ⟨by decide, by decide,
   remove_server_c5 c1Store "srv" "other" "#x" (by decide) (by decide)⟩

lemma get_chat_model_messages (st : ChatListModel) (s c : String) (now : Nat) :
    ((st.get_chat_model s c now).2).messages = messagesOf st s c := by
  rcases hl : lookupD st.chat_models s with _ | d
  · simp [ChatListModel.get_chat_model, messagesOf, chatModelOf, hl, ChatModel.new]
  · rcases hl2 : lookupD d c with _ | m
    · simp [ChatListModel.get_chat_model, messagesOf, chatModelOf, hl, hl2, ChatModel.new]
    · simp [ChatListModel.get_chat_model, messagesOf, chatModelOf, hl, hl2]

lemma messagesOf_on_message_received (st : ChatListModel) (nick s c sender msg : String)
    (now : Nat) :
    messagesOf (AppController.on_message_received st nick s c sender msg now) s c =
      messagesOf st s c ++
        [{ sender := sender, content := msg, timestamp := now, is_system := false }] := by
  have hm := get_chat_model_messages st s c now
  simp only [AppController.on_message_received, ChatListModel.update_channel_info,
    messagesOf, chatModelOf, ChatModel.add_message, ChatModel.set_own_nickname,
    lookupD_insertD_self, Option.some_bind]
  rw [hm]
  rfl

/-- C6: `send_message` fails (returns `False`, emitting nothing, so nothing
is appended) when the server is absent from the `clients` registry and when
the target equals the server identity itself; otherwise it emits exactly one
own-echo `message_received` whose sender is the session's own nickname, and
delivering that signal through `_on_message_received` appends exactly that
one message to the target chat's model. -/
theorem send_message_c6 (clients clientsAbsent : List (String × IRCSession))
    (st : ChatListModel) (server target message nick : String) (now : Nat)
    (sess : IRCSession)
    (habs : lookupD clientsAbsent server = none)
    (hp : lookupD clients server = some sess)
    (ht : target ≠ server) :
    IRCClient.send_message clientsAbsent server target message true = (none, false) ∧
    IRCClient.send_message clients server server message true = (none, false) ∧
    IRCClient.send_message clients server target message true =
      (some (server, target, sess.nickname, message), true) ∧
    messagesOf (AppController.on_message_received st nick server target sess.nickname message now)
      server target =
      messagesOf st server target ++
        [{ sender := sess.nickname, content := message, timestamp := now,
           is_system := false }] := by
  refine ⟨?_, ?_, ?_, ?_⟩
  · simp [IRCClient.send_message, habs]
  · simp [IRCClient.send_message, hp]
  · simp [IRCClient.send_message, hp, ht]
  · exact messagesOf_on_message_received st nick server target sess.nickname message now

/-- Witness for C6: one session `srv` with nickname `nick`, sending `hi` to
`#chan` (and the rejected cases: empty registry, target equal to `srv`). -/
theorem send_message_c6_witness :
    lookupD ([] : List (String × IRCSession)) "srv" = none ∧
    lookupD [("srv", IRCSession.mk "nick")] "srv" = some (IRCSession.mk "nick") ∧
    ("#chan" : String) ≠ "srv" ∧
    (IRCClient.send_message [] "srv" "#chan" "hi" true = (none, false) ∧
     IRCClient.send_message [("srv", IRCSession.mk "nick")] "srv" "srv" "hi" true =
       (none, false) ∧
     IRCClient.send_message [("srv", IRCSession.mk "nick")] "srv" "#chan" "hi" true =
       (some ("srv", "#chan", (IRCSession.mk "nick").nickname, "hi"), true) ∧
     messagesOf
       (AppController.on_message_received emptyStore "me" "srv" "#chan"
         (IRCSession.mk "nick").nickname "hi" 3) "srv" "#chan" =
       messagesOf emptyStore "srv" "#chan" ++
         [{ sender := (IRCSession.mk "nick").nickname, content := "hi", timestamp := 3,
            is_system := false }]) :=
  ⟨by decide, by decide, by decide,
   send_message_c6 [("srv", IRCSession.mk "nick")] [] emptyStore "srv" "#chan" "hi" "me" 3
     (IRCSession.mk "nick") (by decide) (by decide) (by decide)⟩

/-- C7: for a server present in the registry, `disconnect_from_server`
removes the session and emits exactly one `server_disconnected` event — the
outcome of the best-effort quit notification (`sendOk`) makes no difference,
since the `irc` library swallows socket errors during the quit — and for an
absent server it is a no-op emitting nothing. -/
theorem disconnect_c7 (clients clientsAbsent : List (String × IRCSession)) (server : String)
    (sess : IRCSession)
    (hp : lookupD clients server = some sess)
    (hnd : (clients.map Prod.fst).Nodup)
    (habs : lookupD clientsAbsent server = none) :
    IRCClient.disconnect_from_server clients server false = (eraseD clients server, [server]) ∧
    IRCClient.disconnect_from_server clients server true = (eraseD clients server, [server]) ∧
    lookupD (IRCClient.disconnect_from_server clients server false).1 server = none ∧
    IRCClient.disconnect_from_server clientsAbsent server true = (clientsAbsent, []) := by
  refine ⟨?_, ?_, ?_, ?_⟩
  · simp [IRCClient.disconnect_from_server, hp]
  · simp [IRCClient.disconnect_from_server, hp]
  · simp only [IRCClient.disconnect_from_server, hp]
    exact lookupD_eraseD_self clients server hnd
  · simp [IRCClient.disconnect_from_server, habs]

/-- Witness for C7: disconnecting `srv` from a one-session registry with a
failed quit send, and from an empty registry. -/
theorem disconnect_c7_witness :
    lookupD [("srv", IRCSession.mk "nick")] "srv" = some (IRCSession.mk "nick") ∧
    (([("srv", IRCSession.mk "nick")] : List (String × IRCSession)).map Prod.fst).Nodup ∧
    lookupD ([] : List (String × IRCSession)) "srv" = none ∧
    (IRCClient.disconnect_from_server [("srv", IRCSession.mk "nick")] "srv" false =
       (eraseD [("srv", IRCSession.mk "nick")] "srv", ["srv"]) ∧
     IRCClient.disconnect_from_server [("srv", IRCSession.mk "nick")] "srv" true =
       (eraseD [("srv", IRCSession.mk "nick")] "srv", ["srv"]) ∧
     lookupD (IRCClient.disconnect_from_server [("srv", IRCSession.mk "nick")] "srv" false).1
       "srv" = none ∧
     IRCClient.disconnect_from_server [] "srv" true = (([] : List (String × IRCSession)), [])) :=
  ⟨by decide, by decide, by decide,
   disconnect_c7 [("srv", IRCSession.mk "nick")] [] "srv" (IRCSession.mk "nick")
     (by decide) (by decide) (by decide)⟩

lemma on_message_received_models_created (st : ChatListModel) (nick s c sender msg : String)
    (now : Nat) (hmodel : chatModelOf st s c = none) :
    ∃ D M, (AppController.on_message_received st nick s c sender msg now).chat_models =
      insertD st.chat_models s (insertD D c M) ∧ lookupD D c = none := by
  rcases hl : lookupD st.chat_models s with _ | d0
  · refine ⟨[], (((ChatModel.new now).set_own_nickname nick).add_message
      sender msg false now now).1, ?_, rfl⟩
    simp only [AppController.on_message_received, ChatListModel.get_chat_model,
      ChatListModel.update_channel_info, hl, lookupD_insertD_self, Option.getD_some,
      insertD_insertD]
  · have hl2 : lookupD d0 c = none := by
      simp only [chatModelOf, hl, Option.some_bind] at hmodel
      exact hmodel
    refine ⟨d0, (((ChatModel.new now).set_own_nickname nick).add_message
      sender msg false now now).1, ?_, hl2⟩
    simp only [AppController.on_message_received, ChatListModel.get_chat_model,
      ChatListModel.update_channel_info, hl, hl2, lookupD_insertD_self, Option.getD_some,
      insertD_insertD]

lemma on_message_received_chats_no_entry (st : ChatListModel) (nick s c sender msg : String)
    (now : Nat) (hchat : findChat st.chats s c = none) :
    (AppController.on_message_received st nick s c sender msg now).chats = st.chats := by
  obtain ⟨cm1, h1⟩ := get_chat_model_frame st s c now
  have hui := updateInfoEntry_no_match st.chats s c msg (some sender) true now
    st.active_server st.active_channel hchat
  simp only [AppController.on_message_received, ChatListModel.update_channel_info]
  rw [h1]
  simp only [hui]

/-- Counterexample to C8 as stated: an incoming message for the unknown
identity `(srv, #chan)` on the empty store leaves the `_chats` entry list
empty — no sidebar chat entry (with display name, unread counter, preview)
is created for the identity, and `update_channel_info` finds nothing to
update — even though the message itself is stored in a freshly created chat
model. So the store does not contain a chat entry for the identity, let
alone exactly one. -/
theorem chat_creation_c8_counterexample :
    (AppController.on_message_received emptyStore "me" "srv" "#chan" "alice" "hi" 7).chats =
      [] ∧
    countChats
      (AppController.on_message_received emptyStore "me" "srv" "#chan" "alice" "hi" 7).chats
      "srv" "#chan" = 0 ∧
    messagesOf (AppController.on_message_received emptyStore "me" "srv" "#chan" "alice" "hi" 7)
      "srv" "#chan" =
      [{ sender := "alice", content := "hi", timestamp := 7, is_system := false }] := by
  refine ⟨?_, ?_, ?_⟩ <;> rfl

/-- C8 as amended: explicit join (`add_channel`, see C3) and explicit
activation (`set_active_chat`, see C4) create the sidebar chat entry, but an
incoming message for an unknown identity creates only the keyed chat model —
exactly one, holding exactly the received message — while the `_chats`
sidebar list is unchanged; a subsequent `get_chat_model` lookup for the
identity is a no-op returning the stored model (create-if-absent is
idempotent and never duplicates). -/
theorem chat_creation_c8_amended (st : ChatListModel) (nick s c sender msg : String)
    (now n2 : Nat)
    (hchat : findChat st.chats s c = none)
    (hmodel : chatModelOf st s c = none) :
    (AppController.on_message_received st nick s c sender msg now).chats = st.chats ∧
    (chatModelOf (AppController.on_message_received st nick s c sender msg now) s c).map
        ChatModel.messages =
      some [{ sender := sender, content := msg, timestamp := now, is_system := false }] ∧
    countKey
      ((lookupD (AppController.on_message_received st nick s c sender msg now).chat_models
        s).getD []) c = 1 ∧
    ((AppController.on_message_received st nick s c sender msg now).get_chat_model s c n2).1 =
      AppController.on_message_received st nick s c sender msg now := by
  obtain ⟨D, M, hcm, hDc⟩ := on_message_received_models_created st nick s c sender msg now hmodel
  have hlkS : lookupD (AppController.on_message_received st nick s c sender msg now).chat_models
      s = some (insertD D c M) := by
    rw [hcm]; exact lookupD_insertD_self _ _ _
  have hlkC : lookupD (insertD D c M) c = some M := lookupD_insertD_self _ _ _
  have hmsg := messagesOf_on_message_received st nick s c sender msg now
  have hempty : messagesOf st s c = [] := by simp [messagesOf, hmodel]
  rw [hempty, List.nil_append] at hmsg
  refine ⟨on_message_received_chats_no_entry st nick s c sender msg now hchat, ?_, ?_, ?_⟩
  · rcases hres : chatModelOf (AppController.on_message_received st nick s c sender msg now)
        s c with _ | m
    · rw [messagesOf, hres] at hmsg
      exact absurd hmsg (by simp)
    · rw [messagesOf, hres] at hmsg
      simp only at hmsg
      simp [hmsg]
  · rw [hlkS, Option.getD_some]
    exact countKey_insertD_absent D c M hDc
  · simp [ChatListModel.get_chat_model, hlkS, hlkC]

/-- Witness for C8's amended statement on the empty store. -/
theorem chat_creation_c8_amended_witness :
    findChat emptyStore.chats "srv" "#chan" = none ∧
    chatModelOf emptyStore "srv" "#chan" = none ∧
    ((AppController.on_message_received emptyStore "me" "srv" "#chan" "alice" "hi" 7).chats =
       emptyStore.chats ∧
     (chatModelOf (AppController.on_message_received emptyStore "me" "srv" "#chan" "alice" "hi" 7)
         "srv" "#chan").map ChatModel.messages =
       some [{ sender := "alice", content := "hi", timestamp := 7, is_system := false }] ∧
     countKey
       ((lookupD (AppController.on_message_received emptyStore "me" "srv" "#chan" "alice"
         "hi" 7).chat_models "srv").getD []) "#chan" = 1 ∧
     ((AppController.on_message_received emptyStore "me" "srv" "#chan" "alice" "hi"
         7).get_chat_model "srv" "#chan" 9).1 =
       AppController.on_message_received emptyStore "me" "srv" "#chan" "alice" "hi" 7) :=
  ⟨by decide, by decide,
   chat_creation_c8_amended emptyStore "me" "srv" "#chan" "alice" "hi" 7 9
     (by decide) (by decide)⟩

/-- Chat model with a pending message (stamped 11) newer than its last-update
instant (5): `update_messages_if_needed` on it would report a change. -/
def c9Model : ChatModel :=
  { messages := [{ sender := "alice", content := "hi", timestamp := 11, is_system := false }],
    own_nickname := "", last_update_timestamp := 5 }

/-- Scheduler state for C9: one server `srv` whose last drain happened at
instant 10, with active chat `(srv, #chan)` holding the pending message. -/
def c9State : AppState :=
  { clients := [("srv", IRCSession.mk "nick")],
    chatList :=
      { chats := [channelEntry "srv" "#chan" false],
        active_server := some "srv", active_channel := some "#chan",
        chat_models := [("srv", [("#chan", c9Model)])] },
    last_update_time := [("srv", 10)] }

/-- Counterexample to C9 as stated: at instant 11 — within the 2-second
minimum interval of the last drain at 10 — the active chat `(srv, #chan)`
has a reconciliation due (its `update_messages_if_needed` would report a
change), yet the tick returns the state completely unchanged and emits no
`messagesUpdated`: the per-server `continue` skips the whole loop body, the
active chat's reconciliation included, not just the `process_once` drain. -/
theorem scheduler_c9_counterexample :
    (c9Model.update_messages_if_needed).2 = true ∧
    AppController.check_for_new_messages c9State 11 (fun _ => true) = (c9State, []) := by
  exact ⟨rfl, rfl⟩

/-- C9 as amended: when a tick occurs within the per-server minimum interval
(2 seconds) of the server's recorded last drain, that server's entire loop
body is skipped — no `process_once` drain, no reconciliation of the active
chat even if one is due, no state change and no notification; in particular
each server is drained at most once per minimum interval. -/
theorem scheduler_c9_amended (st : AppState) (server : String) (sess : IRCSession)
    (t1 t2 : Nat) (pr : String → Bool)
    (hc : st.clients = [(server, sess)])
    (hl : lookupD st.last_update_time server = some t1)
    (ht : t2 < t1 + 2) :
    AppController.check_for_new_messages st t2 pr = (st, []) := by
  simp only [AppController.check_for_new_messages, hc, List.map_cons, List.map_nil,
    List.isEmpty_cons, Bool.false_eq_true, if_false, List.foldl_cons, List.foldl_nil,
    tickServer, hl, Option.getD_some, if_pos ht]

/-- Witness for C9's amended statement: the concrete scheduler state, second
tick at 11 after a drain at 10. -/
theorem scheduler_c9_amended_witness :
    c9State.clients = [("srv", IRCSession.mk "nick")] ∧
    lookupD c9State.last_update_time "srv" = some 10 ∧
    (11 : Nat) < 10 + 2 ∧
    AppController.check_for_new_messages c9State 11 (fun _ => false) = (c9State, []) :=
  ⟨by decide, by decide, by decide,
   scheduler_c9_amended c9State "srv" (IRCSession.mk "nick") 10 11 (fun _ => false)
     (by decide) (by decide) (by decide)⟩
